import Mathlib

/-!
Shallow embedding of the two instance-generator scripts of the repository:

* `instance_generator.py` — `gen_instance` clamps an out-of-range edge count
  `ne` into `[m, m*n]` (printing a warning), samples benefits and weights,
  builds a pair set that covers every package index, fills it with random
  pairs until it has `ne` elements, shuffles, and serialises.
* `gerador_de_instâncias.py` (namespace `Gerador`) — `gen_instance`
  enumerates all `m*n` pairs, shuffles them, raises `ValueError` when
  `ne > m*n`, and takes the first `ne` pairs.

Python's `random` module is external library code; it is modelled by an
explicit stream of raw values (`Rng`), each primitive draw consuming one
element, with `random.seed` replacing the ambient stream by one computed
from the seed.  Raising an exception is modelled by `Option`; the unbounded
`while` loop of `instance_generator.py` is modelled with explicit fuel.
-/

/-- A pseudo-random source: an infinite stream of raw natural values.
Modelled from the spec: the shared Mersenne–Twister source of Python's
`random` module is external library code and is abstracted as a stream. -/
abbrev Rng := Nat → Nat

/-- The stream after one value has been consumed. -/
def rngTail (g : Rng) : Rng := fun i => g (i + 1)

/-- Modelled from the spec: `random.seed(seed)` reseeds the shared random
source deterministically; the reseeded source is a stream computed from the
seed alone (the concrete mixing function is irrelevant to every claim). -/
def seededStream (seed : Nat) : Rng :=
  fun i => ((seed + i + 1) * 2654435761 / 65536) % 4294967296

/-- The `if seed is not None: random.seed(seed)` prologue shared by both
variants: an explicit seed replaces the ambient random source, otherwise the
ambient source is used unchanged. -/
def seedOr : Option Nat → Rng → Rng
  | some s, _ => seededStream s
  | none, g => g

/-- Modelled from the spec: `random.randint(lo, hi)` (external library code)
returns an integer in `[lo, hi]` inclusive, consuming one stream value. -/
def randint (lo hi : Nat) (g : Rng) : Nat × Rng :=
  (lo + g 0 % (hi - lo + 1), rngTail g)

/-- `[random.randint(lo, hi) for _ in range(count)]`: `count` sequential
draws, first list element drawn first. -/
def randList (count lo hi : Nat) (g : Rng) : List Nat × Rng :=
  match count with
  | 0 => ([], g)
  | c + 1 =>
    let v := randint lo hi g
    let rest := randList c lo hi v.2
    (v.1 :: rest.1, rest.2)

/-- One selection step of the modelled shuffle: pick a position from the
stream, move that element to the front of the result, continue on the rest. -/
def shuffleAux : Nat → List (Nat × Nat) → Rng → List (Nat × Nat) × Rng
  | 0, l, g => (l, g)
  | _ + 1, [], g => ([], g)
  | fuel + 1, a :: l, g =>
    let k := g 0 % (a :: l).length
    let x := (a :: l).getD k (0, 0)
    let rest := (a :: l).take k ++ (a :: l).drop (k + 1)
    let r := shuffleAux fuel rest (rngTail g)
    (x :: r.1, r.2)

/-- Modelled from the spec: `random.shuffle` (external library code) permutes
the list in place; modelled as a selection shuffle driven by the stream. -/
def shuffle (l : List (Nat × Nat)) (g : Rng) : List (Nat × Nat) × Rng :=
  shuffleAux l.length l g

/-- `pairs_set.add(p)`: Python set insertion, modelled on the set's contents
as a duplicate-free list.  (A Python set iterates in arbitrary order; every
use below shuffles the elements afterwards, so only the contents matter.) -/
def insertPair (p : Nat × Nat) (l : List (Nat × Nat)) : List (Nat × Nat) :=
  if p ∈ l then l else l ++ [p]

/-- One `f"{p[0]} {p[1]}"` output line for a pair. -/
def pairLine : Nat × Nat → String
  | (p, d) => toString p ++ " " ++ toString d

namespace InstanceGenerator

/-- The validation block of `gen_instance` (instance_generator.py): clamp
`ne` into `[m, m*n]`, returning the warning lines the source prints together
with the adjusted value. -/
def clampNe (m n : Nat) (ne : Int) : List String × Nat :=
  if ne < (m : Int) then
    (["[!] ne=" ++ toString ne ++ " is too small. Adjusted to " ++ toString m
        ++ " to ensure each package has a dependency."], m)
  else if ne > ((m * n : Nat) : Int) then
    (["[!] ne=" ++ toString ne ++ " is too large. Adjusted to maximum possible "
        ++ toString (m * n) ++ "."], m * n)
  else
    ([], ne.toNat)

/-- Step 1 of `gen_instance`: `for i in range(m): pairs_set.add((i, randint(0, n-1)))`,
written with an explicit running index `i` and countdown `k`. -/
def coverAux (n : Nat) : Nat → Nat → List (Nat × Nat) → Rng → List (Nat × Nat) × Rng
  | 0, _, acc, g => (acc, g)
  | k + 1, i, acc, g =>
    let j := randint 0 (n - 1) g
    coverAux n k (i + 1) (insertPair (i, j.1) acc) j.2

/-- The coverage step started from the empty set at package index `0`. -/
def coverPairs (m n : Nat) (g : Rng) : List (Nat × Nat) × Rng :=
  coverAux n m 0 [] g

/-- Step 2 of `gen_instance`: `while len(pairs_set) < ne:` draw a pair and
insert it.  The source loop has no termination bound, so it is modelled with
explicit fuel and returns `none` when the fuel runs out before the set
reaches `ne` elements. -/
def fillAux (ne m n : Nat) : Nat → List (Nat × Nat) → Rng → Option (List (Nat × Nat) × Rng)
  | 0, acc, g => if ne ≤ acc.length then some (acc, g) else none
  | f + 1, acc, g =>
    if ne ≤ acc.length then some (acc, g)
    else
      let p := randint 0 (m - 1) g
      let d := randint 0 (n - 1) p.2
      fillAux ne m n f (insertPair (p.1, d.1) acc) d.2

/-- The pair pipeline of `gen_instance`: coverage step, fill loop, final
`random.shuffle(pairs)` of the listed set. -/
def pairsRun (m n neC fuel : Nat) (g : Rng) : Option (List (Nat × Nat)) :=
  let cv := coverPairs m n g
  (fillAux neC m n fuel cv.1 cv.2).map fun pg => (shuffle pg.1 pg.2).1

/-- The data `gen_instance` (instance_generator.py) computes before
serialisation: sampled values, emitted pairs, the (possibly clamped) edge
count written to the header, and the warning lines printed to the console. -/
structure GenState where
  benefits : List Nat
  weights : List Nat
  pairs : List (Nat × Nat)
  neVal : Nat
  console : List String

/-- The body of `gen_instance` (instance_generator.py) up to serialisation:
seed handling, `ne` validation (with its prints), benefit and weight
sampling, coverage step, fill loop, shuffle. -/
def core (m n : Nat) (ne : Int) (benefit_max dep_max : Nat) (seed : Option Nat)
    (g : Rng) (fuel : Nat) : Option GenState :=
  let g0 := seedOr seed g
  let cn := clampNe m n ne
  let bs := randList m 10 benefit_max g0
  let ds := randList n 5 dep_max bs.2
  match pairsRun m n cn.2 fuel ds.2 with
  | none => none
  | some pairs => some ⟨bs.1, ds.1, pairs, cn.2, cn.1⟩

/-- The `out` list of lines built by `gen_instance` before `"\n".join(out)`:
header `f"{m} {n} {ne} {b}"` (with the clamped `ne`), the space-joined
benefits, the space-joined weights, then one line per pair. -/
def outLines (m n b : Nat) (st : GenState) : List String :=
  (toString m ++ " " ++ toString n ++ " " ++ toString st.neVal ++ " " ++ toString b)
    :: String.intercalate " " (st.benefits.map toString)
    :: String.intercalate " " (st.weights.map toString)
    :: st.pairs.map pairLine

/-- `gen_instance(m, n, ne, b, benefit_max, dep_max, seed)` of
instance_generator.py: the joined instance text together with the lines the
call printed to the console; `none` when the unbounded sampling loop is cut
off by the fuel. -/
def gen_instance (m n : Nat) (ne : Int) (b benefit_max dep_max : Nat)
    (seed : Option Nat) (g : Rng) (fuel : Nat) : Option (String × List String) :=
  (core m n ne benefit_max dep_max seed g fuel).map fun st =>
    (String.intercalate "\n" (outLines m n b st), st.console)

end InstanceGenerator

namespace Gerador

/-- The data `gen_instance` (gerador_de_instâncias.py) computes before
serialisation. -/
structure GenState where
  benefits : List Nat
  weights : List Nat
  pairs : List (Nat × Nat)

/-- `all_pairs = [(i, j) for i in range(m) for j in range(n)]`. -/
def allPairs (m n : Nat) : List (Nat × Nat) :=
  (List.range m).flatMap fun i => (List.range n).map fun j => (i, j)

/-- `all_pairs[:ne]` with Python slice semantics: a non-negative bound takes
that many elements, a negative bound counts from the end of the list. -/
def pySliceTo (l : List (Nat × Nat)) (ne : Int) : List (Nat × Nat) :=
  if 0 ≤ ne then l.take ne.toNat else l.take (l.length - (-ne).toNat)

/-- The body of `gen_instance` (gerador_de_instâncias.py) up to
serialisation: seed handling, benefit and weight sampling, enumeration and
shuffle of all pairs, the `ne > len(all_pairs)` check (raising `ValueError`,
modelled as `none`), and the slice `all_pairs[:ne]`. -/
def core (m n : Nat) (ne : Int) (benefit_max dep_max : Nat) (seed : Option Nat)
    (g : Rng) : Option GenState :=
  let g0 := seedOr seed g
  let bs := randList m 10 benefit_max g0
  let ds := randList n 5 dep_max bs.2
  let shuffled := (shuffle (allPairs m n) ds.2).1
  if (shuffled.length : Int) < ne then none
  else some ⟨bs.1, ds.1, pySliceTo shuffled ne⟩

/-- The `out` list of lines built by `gen_instance` before `"\n".join(out)`;
the header prints the caller's `ne` unchanged. -/
def outLines (m n : Nat) (ne : Int) (b : Nat) (st : GenState) : List String :=
  (toString m ++ " " ++ toString n ++ " " ++ toString ne ++ " " ++ toString b)
    :: String.intercalate " " (st.benefits.map toString)
    :: String.intercalate " " (st.weights.map toString)
    :: st.pairs.map pairLine

/-- `gen_instance(m, n, ne, b, benefit_max, dep_max, seed)` of
gerador_de_instâncias.py: the joined instance text, or `none` for the
`ValueError` raised when `ne` exceeds `m*n`. -/
def gen_instance (m n : Nat) (ne : Int) (b benefit_max dep_max : Nat)
    (seed : Option Nat) (g : Rng) : Option String :=
  (core m n ne benefit_max dep_max seed g).map fun st =>
    String.intercalate "\n" (outLines m n ne b st)

end Gerador

/-! ### Basic lemmas about the random primitives -/

theorem randint_fst_ge (lo hi : Nat) (g : Rng) : lo ≤ (randint lo hi g).1 :=
  Nat.le_add_right lo _

theorem randint_fst_le (lo hi : Nat) (g : Rng) (h : lo ≤ hi) :
    (randint lo hi g).1 ≤ hi := by
  have hmod : g 0 % (hi - lo + 1) < hi - lo + 1 := Nat.mod_lt _ (by omega)
  simp only [randint]
  omega

theorem randint_fst_lt (n : Nat) (g : Rng) (h : 1 ≤ n) :
    (randint 0 (n - 1) g).1 < n := by
  have hmod : g 0 % (n - 1 - 0 + 1) < n - 1 - 0 + 1 := Nat.mod_lt _ (by omega)
  simp only [randint]
  omega

theorem randList_length (count lo hi : Nat) (g : Rng) :
    (randList count lo hi g).1.length = count := by
  induction count generalizing g with
  | zero => rfl
  | succ c ih => simp [randList, ih]

theorem randList_mem (count lo hi : Nat) (g : Rng) (h : lo ≤ hi) :
    ∀ v ∈ (randList count lo hi g).1, lo ≤ v ∧ v ≤ hi := by
  induction count generalizing g with
  | zero => intro v hv; simp [randList] at hv
  | succ c ih =>
    intro v hv
    simp only [randList, List.mem_cons] at hv
    rcases hv with rfl | hv
    · exact ⟨randint_fst_ge _ _ _, randint_fst_le _ _ _ h⟩
    · exact ih _ v hv

theorem insertPair_subset (p : Nat × Nat) (l : List (Nat × Nat)) :
    l ⊆ insertPair p l := by
  unfold insertPair
  split
  · exact fun q hq => hq
  · exact fun q hq => List.mem_append_left _ hq

theorem mem_insertPair {p q : Nat × Nat} {l : List (Nat × Nat)} :
    q ∈ insertPair p l ↔ q ∈ l ∨ q = p := by
  unfold insertPair
  split
  · constructor
    · exact fun h => Or.inl h
    · rintro (h | rfl)
      · exact h
      · assumption
  · simp [List.mem_append]

theorem insertPair_nodup {p : Nat × Nat} {l : List (Nat × Nat)}
    (h : l.Nodup) : (insertPair p l).Nodup := by
  unfold insertPair
  split
  · exact h
  · rw [List.nodup_append]
    refine ⟨h, List.nodup_singleton p, ?_⟩
    intro q hq hq'
    rw [List.mem_singleton] at hq'
    subst hq'
    exact absurd hq (by assumption)

theorem insertPair_length_le (p : Nat × Nat) (l : List (Nat × Nat)) :
    (insertPair p l).length ≤ l.length + 1 := by
  unfold insertPair
  split
  · omega
  · simp

theorem insertPair_length_ge (p : Nat × Nat) (l : List (Nat × Nat)) :
    l.length ≤ (insertPair p l).length := by
  unfold insertPair
  split
  · omega
  · simp

/-! ### The modelled shuffle is a permutation -/

theorem shuffleAux_perm :
    ∀ (fuel : Nat) (l : List (Nat × Nat)) (g : Rng),
      (shuffleAux fuel l g).1.Perm l := by
  intro fuel
  induction fuel with
  | zero => intro l g; simp [shuffleAux]
  | succ f ih =>
    intro l g
    match l with
    | [] => simp [shuffleAux]
    | a :: l' =>
      have hk : g 0 % (a :: l').length < (a :: l').length :=
        Nat.mod_lt _ (by simp)
      simp only [shuffleAux]
      have hsplit : a :: l' =
          (a :: l').take (g 0 % (a :: l').length)
            ++ (a :: l').get ⟨g 0 % (a :: l').length, hk⟩
              :: (a :: l').drop (g 0 % (a :: l').length + 1) := by
        conv_lhs => rw [← List.take_append_drop (g 0 % (a :: l').length) (a :: l')]
        rw [List.drop_eq_getElem_cons hk]
        rfl
      have hx : (a :: l').getD (g 0 % (a :: l').length) (0, 0)
          = (a :: l').get ⟨g 0 % (a :: l').length, hk⟩ := by
        rw [List.getD_eq_getElem?_getD, List.getElem?_eq_getElem hk,
          Option.getD_some, List.get_eq_getElem]
      rw [hx]
      refine List.Perm.trans (List.Perm.cons _ (ih _ _)) ?_
      conv_rhs => rw [hsplit]
      exact List.perm_middle.symm

theorem shuffle_perm (l : List (Nat × Nat)) (g : Rng) :
    (shuffle l g).1.Perm l :=
  shuffleAux_perm l.length l g

theorem shuffle_length (l : List (Nat × Nat)) (g : Rng) :
    (shuffle l g).1.length = l.length :=
  (shuffle_perm l g).length_eq

/-! ### The coverage step of instance_generator.py -/

theorem insertPair_of_not_mem {p : Nat × Nat} {l : List (Nat × Nat)}
    (h : p ∉ l) : insertPair p l = l ++ [p] := by
  unfold insertPair
  rw [if_neg h]

namespace InstanceGenerator

theorem coverAux_map_fst (n : Nat) :
    ∀ (k i : Nat) (acc : List (Nat × Nat)) (g : Rng),
      (∀ pd ∈ acc, pd.1 < i) →
      ((coverAux n k i acc g).1).map Prod.fst
        = acc.map Prod.fst ++ List.range' i k := by
  intro k
  induction k with
  | zero => intro i acc g _; simp [coverAux]
  | succ k ih =>
    intro i acc g hacc
    have hnm : ((i, (randint 0 (n - 1) g).1) : Nat × Nat) ∉ acc := by
      intro hmem
      exact absurd (hacc _ hmem) (by simp)
    have hacc' : ∀ pd ∈ insertPair (i, (randint 0 (n - 1) g).1) acc, pd.1 < i + 1 := by
      intro pd hpd
      rcases mem_insertPair.mp hpd with h | rfl
      · exact Nat.lt_succ_of_lt (hacc _ h)
      · exact Nat.lt_succ_self i
    simp only [coverAux]
    rw [ih (i + 1) _ _ hacc', insertPair_of_not_mem hnm]
    simp [List.range'_succ]

theorem coverPairs_map_fst (m n : Nat) (g : Rng) :
    ((coverPairs m n g).1).map Prod.fst = List.range m := by
  have h := coverAux_map_fst n m 0 [] g (by simp)
  simpa [coverPairs, List.range_eq_range'] using h

theorem coverPairs_length (m n : Nat) (g : Rng) :
    (coverPairs m n g).1.length = m := by
  have h := congrArg List.length (coverPairs_map_fst m n g)
  simpa using h

theorem coverPairs_nodup (m n : Nat) (g : Rng) :
    (coverPairs m n g).1.Nodup :=
  List.Nodup.of_map Prod.fst
    (by rw [coverPairs_map_fst]; exact List.nodup_range m)

theorem coverPairs_fst_lt (m n : Nat) (g : Rng) :
    ∀ pd ∈ (coverPairs m n g).1, pd.1 < m := by
  intro pd hpd
  have h : pd.1 ∈ ((coverPairs m n g).1).map Prod.fst :=
    List.mem_map_of_mem Prod.fst hpd
  rw [coverPairs_map_fst] at h
  exact List.mem_range.mp h

theorem coverAux_snd_lt (n : Nat) (hn : 1 ≤ n) :
    ∀ (k i : Nat) (acc : List (Nat × Nat)) (g : Rng),
      (∀ pd ∈ acc, pd.2 < n) →
      ∀ pd ∈ (coverAux n k i acc g).1, pd.2 < n := by
  intro k
  induction k with
  | zero => intro i acc g hacc; simpa [coverAux] using hacc
  | succ k ih =>
    intro i acc g hacc
    simp only [coverAux]
    refine ih (i + 1) _ _ ?_
    intro pd hpd
    rcases mem_insertPair.mp hpd with h | rfl
    · exact hacc _ h
    · exact randint_fst_lt n g hn

theorem coverPairs_snd_lt (m n : Nat) (g : Rng) (hn : 1 ≤ n) :
    ∀ pd ∈ (coverPairs m n g).1, pd.2 < n :=
  coverAux_snd_lt n hn m 0 [] g (by simp)

theorem coverPairs_coverage (m n : Nat) (g : Rng) :
    ∀ i < m, ∃ j, (i, j) ∈ (coverPairs m n g).1 := by
  intro i hi
  have h : i ∈ ((coverPairs m n g).1).map Prod.fst := by
    rw [coverPairs_map_fst]
    exact List.mem_range.mpr hi
  rcases List.mem_map.mp h with ⟨pd, hpd, hfst⟩
  refine ⟨pd.2, ?_⟩
  rw [← hfst, Prod.mk.eta]
  exact hpd

/-! ### The fill loop of instance_generator.py -/

theorem fillAux_of_le (ne m n fuel : Nat) (acc : List (Nat × Nat)) (g : Rng)
    (h : ne ≤ acc.length) : fillAux ne m n fuel acc g = some (acc, g) := by
  cases fuel <;> simp [fillAux, h]

theorem fillAux_length (ne m n : Nat) :
    ∀ (fuel : Nat) (acc : List (Nat × Nat)) (g : Rng) (l : List (Nat × Nat)) (g' : Rng),
      acc.length ≤ ne → fillAux ne m n fuel acc g = some (l, g') →
      l.length = ne := by
  intro fuel
  induction fuel with
  | zero =>
    intro acc g l g' hle h
    simp only [fillAux] at h
    split at h
    · have hl : acc = l := congrArg Prod.fst (Option.some.inj h)
      subst hl
      omega
    · exact absurd h (by simp)
  | succ f ih =>
    intro acc g l g' hle h
    simp only [fillAux] at h
    split at h
    · have hl : acc = l := congrArg Prod.fst (Option.some.inj h)
      subst hl
      omega
    · have hlt : acc.length < ne := by omega
      have hle' : (insertPair ((randint 0 (m - 1) g).1,
          (randint 0 (n - 1) (randint 0 (m - 1) g).2).1) acc).length ≤ ne := by
        have := insertPair_length_le ((randint 0 (m - 1) g).1,
          (randint 0 (n - 1) (randint 0 (m - 1) g).2).1) acc
        omega
      exact ih _ _ _ _ hle' h

theorem fillAux_nodup (ne m n : Nat) :
    ∀ (fuel : Nat) (acc : List (Nat × Nat)) (g : Rng) (l : List (Nat × Nat)) (g' : Rng),
      acc.Nodup → fillAux ne m n fuel acc g = some (l, g') → l.Nodup := by
  intro fuel
  induction fuel with
  | zero =>
    intro acc g l g' hnd h
    simp only [fillAux] at h
    split at h
    · have hl : acc = l := congrArg Prod.fst (Option.some.inj h)
      subst hl
      exact hnd
    · exact absurd h (by simp)
  | succ f ih =>
    intro acc g l g' hnd h
    simp only [fillAux] at h
    split at h
    · have hl : acc = l := congrArg Prod.fst (Option.some.inj h)
      subst hl
      exact hnd
    · exact ih _ _ _ _ (insertPair_nodup hnd) h

theorem fillAux_bounds (ne m n : Nat) (hm : 1 ≤ m) (hn : 1 ≤ n) :
    ∀ (fuel : Nat) (acc : List (Nat × Nat)) (g : Rng) (l : List (Nat × Nat)) (g' : Rng),
      (∀ pd ∈ acc, pd.1 < m ∧ pd.2 < n) →
      fillAux ne m n fuel acc g = some (l, g') →
      ∀ pd ∈ l, pd.1 < m ∧ pd.2 < n := by
  intro fuel
  induction fuel with
  | zero =>
    intro acc g l g' hacc h
    simp only [fillAux] at h
    split at h
    · have hl : acc = l := congrArg Prod.fst (Option.some.inj h)
      subst hl
      exact hacc
    · exact absurd h (by simp)
  | succ f ih =>
    intro acc g l g' hacc h
    simp only [fillAux] at h
    split at h
    · have hl : acc = l := congrArg Prod.fst (Option.some.inj h)
      subst hl
      exact hacc
    · refine ih _ _ _ _ ?_ h
      intro pd hpd
      rcases mem_insertPair.mp hpd with hmem | rfl
      · exact hacc _ hmem
      · exact ⟨randint_fst_lt m g hm, randint_fst_lt n _ hn⟩

theorem fillAux_subset (ne m n : Nat) :
    ∀ (fuel : Nat) (acc : List (Nat × Nat)) (g : Rng) (l : List (Nat × Nat)) (g' : Rng),
      fillAux ne m n fuel acc g = some (l, g') → acc ⊆ l := by
  intro fuel
  induction fuel with
  | zero =>
    intro acc g l g' h
    simp only [fillAux] at h
    split at h
    · have hl : acc = l := congrArg Prod.fst (Option.some.inj h)
      subst hl
      exact fun q hq => hq
    · exact absurd h (by simp)
  | succ f ih =>
    intro acc g l g' h
    simp only [fillAux] at h
    split at h
    · have hl : acc = l := congrArg Prod.fst (Option.some.inj h)
      subst hl
      exact fun q hq => hq
    · exact List.Subset.trans (insertPair_subset _ _) (ih _ _ _ _ h)

end InstanceGenerator

/-! ### The assembled pair pipeline of instance_generator.py -/

namespace InstanceGenerator

theorem pairsRun_some_elim {m n neC fuel : Nat} {g : Rng} {pairs : List (Nat × Nat)}
    (h : pairsRun m n neC fuel g = some pairs) :
    ∃ ps g', fillAux neC m n fuel (coverPairs m n g).1 (coverPairs m n g).2 = some (ps, g')
      ∧ pairs = (shuffle ps g').1 := by
  simp only [pairsRun] at h
  cases hf : fillAux neC m n fuel (coverPairs m n g).1 (coverPairs m n g).2 with
  | none => rw [hf] at h; simp at h
  | some pg =>
    rw [hf, Option.map_some'] at h
    exact ⟨pg.1, pg.2, rfl, (Option.some.inj h).symm⟩

theorem pairsRun_length {m n neC fuel : Nat} {g : Rng} {pairs : List (Nat × Nat)}
    (hm : m ≤ neC) (h : pairsRun m n neC fuel g = some pairs) :
    pairs.length = neC := by
  obtain ⟨ps, g', hf, rfl⟩ := pairsRun_some_elim h
  rw [shuffle_length]
  exact fillAux_length neC m n fuel _ _ _ _ (by rw [coverPairs_length]; exact hm) hf

theorem pairsRun_nodup {m n neC fuel : Nat} {g : Rng} {pairs : List (Nat × Nat)}
    (h : pairsRun m n neC fuel g = some pairs) : pairs.Nodup := by
  obtain ⟨ps, g', hf, rfl⟩ := pairsRun_some_elim h
  exact (shuffle_perm ps g').symm.nodup
    (fillAux_nodup neC m n fuel _ _ _ _ (coverPairs_nodup m n g) hf)

theorem pairsRun_bounds {m n neC fuel : Nat} {g : Rng} {pairs : List (Nat × Nat)}
    (hm : 1 ≤ m) (hn : 1 ≤ n) (h : pairsRun m n neC fuel g = some pairs) :
    ∀ pd ∈ pairs, pd.1 < m ∧ pd.2 < n := by
  obtain ⟨ps, g', hf, rfl⟩ := pairsRun_some_elim h
  intro pd hpd
  have hps : pd ∈ ps := (shuffle_perm ps g').mem_iff.mp hpd
  refine fillAux_bounds neC m n hm hn fuel _ _ _ _ ?_ hf pd hps
  intro q hq
  exact ⟨coverPairs_fst_lt m n g q hq, coverPairs_snd_lt m n g hn q hq⟩

theorem pairsRun_coverage {m n neC fuel : Nat} {g : Rng} {pairs : List (Nat × Nat)}
    (h : pairsRun m n neC fuel g = some pairs) :
    ∀ i < m, ∃ j, (i, j) ∈ pairs := by
  obtain ⟨ps, g', hf, rfl⟩ := pairsRun_some_elim h
  intro i hi
  obtain ⟨j, hj⟩ := coverPairs_coverage m n g i hi
  have hps : (i, j) ∈ ps := fillAux_subset neC m n fuel _ _ _ _ hf hj
  exact ⟨j, (shuffle_perm ps g').mem_iff.mpr hps⟩

theorem pairsRun_of_le {m n neC fuel : Nat} {g : Rng} (hle : neC ≤ m) :
    pairsRun m n neC fuel g
      = some ((shuffle (coverPairs m n g).1 (coverPairs m n g).2).1) := by
  simp only [pairsRun]
  rw [fillAux_of_le neC m n fuel _ _ (by rw [coverPairs_length]; exact hle)]
  rfl

/-! ### The clamp step -/

theorem clampNe_bounds (m n : Nat) (ne : Int) (hn : 1 ≤ n) :
    m ≤ (clampNe m n ne).2 ∧ (clampNe m n ne).2 ≤ m * n := by
  have hmn : m ≤ m * n := Nat.le_mul_of_pos_right m hn
  unfold clampNe
  split
  · exact ⟨Nat.le_refl m, hmn⟩
  · split
    · exact ⟨hmn, Nat.le_refl _⟩
    · omega

theorem clampNe_of_valid (m n : Nat) (ne : Int)
    (h1 : (m : Int) ≤ ne) (h2 : ne ≤ ((m * n : Nat) : Int)) :
    clampNe m n ne = ([], ne.toNat) := by
  unfold clampNe
  rw [if_neg (by omega), if_neg (by omega)]

theorem core_some_iff {m n : Nat} {ne : Int} {bmax dmax : Nat} {seed : Option Nat}
    {g : Rng} {fuel : Nat} {st : GenState} :
    core m n ne bmax dmax seed g fuel = some st ↔
      pairsRun m n (clampNe m n ne).2 fuel
          (randList n 5 dmax (randList m 10 bmax (seedOr seed g)).2).2 = some st.pairs
      ∧ st.benefits = (randList m 10 bmax (seedOr seed g)).1
      ∧ st.weights = (randList n 5 dmax (randList m 10 bmax (seedOr seed g)).2).1
      ∧ st.neVal = (clampNe m n ne).2
      ∧ st.console = (clampNe m n ne).1 := by
  simp only [core]
  cases hpr : pairsRun m n (clampNe m n ne).2 fuel
      (randList n 5 dmax (randList m 10 bmax (seedOr seed g)).2).2 with
  | none => simp
  | some pairs =>
    cases st with
    | mk benefits weights ps neVal console =>
      simp only [Option.some.injEq, GenState.mk.injEq]
      constructor
      · rintro ⟨rfl, rfl, rfl, rfl, rfl⟩
        exact ⟨rfl, rfl, rfl, rfl, rfl⟩
      · rintro ⟨rfl, rfl, rfl, rfl, rfl⟩
        exact ⟨rfl, rfl, rfl, rfl, rfl⟩

end InstanceGenerator

/-! ### The pair enumeration of gerador_de_instâncias.py -/

namespace Gerador

theorem allPairs_eq_product (m n : Nat) :
    allPairs m n = (List.range m).product (List.range n) := rfl

theorem allPairs_length (m n : Nat) : (allPairs m n).length = m * n := by
  rw [allPairs_eq_product]
  simpa using List.length_product (List.range m) (List.range n)

theorem allPairs_nodup (m n : Nat) : (allPairs m n).Nodup := by
  rw [allPairs_eq_product]
  exact List.Nodup.product (List.nodup_range m) (List.nodup_range n)

theorem mem_allPairs {m n : Nat} {pd : Nat × Nat} :
    pd ∈ allPairs m n ↔ pd.1 < m ∧ pd.2 < n := by
  rw [allPairs_eq_product]
  cases pd with
  | mk p d =>
    show (p, d) ∈ (List.range m) ×ˢ (List.range n) ↔ _
    simp [List.mem_product, List.mem_range]

theorem core_eq_none_iff {m n : Nat} {ne : Int} {bmax dmax : Nat}
    {seed : Option Nat} {g : Rng} :
    core m n ne bmax dmax seed g = none ↔ ((m * n : Nat) : Int) < ne := by
  simp only [core, shuffle_length, allPairs_length]
  split
  · next hlt => exact iff_of_true rfl hlt
  · next hge => exact iff_of_false (by simp) hge

theorem core_eq_some_iff {m n : Nat} {ne : Int} {bmax dmax : Nat} {seed : Option Nat}
    {g : Rng} {st : GenState} :
    core m n ne bmax dmax seed g = some st ↔
      ne ≤ ((m * n : Nat) : Int)
      ∧ st.benefits = (randList m 10 bmax (seedOr seed g)).1
      ∧ st.weights = (randList n 5 dmax (randList m 10 bmax (seedOr seed g)).2).1
      ∧ st.pairs = pySliceTo
          (shuffle (allPairs m n) (randList n 5 dmax (randList m 10 bmax (seedOr seed g)).2).2).1
          ne := by
  simp only [core, shuffle_length, allPairs_length]
  split
  · next hlt =>
    constructor
    · intro h; exact Option.noConfusion h
    · rintro ⟨hle, -⟩; exact absurd hlt (by omega)
  · next hge =>
    cases st with
    | mk benefits weights ps =>
      simp only [Option.some.injEq, GenState.mk.injEq]
      constructor
      · rintro ⟨rfl, rfl, rfl⟩
        exact ⟨by omega, rfl, rfl, rfl⟩
      · rintro ⟨-, rfl, rfl, rfl⟩
        exact ⟨rfl, rfl, rfl⟩

theorem pySliceTo_of_nonneg (l : List (Nat × Nat)) (ne : Int) (h : 0 ≤ ne) :
    pySliceTo l ne = l.take ne.toNat := by
  unfold pySliceTo
  rw [if_pos h]

end Gerador

/-! ### Linking `core` to the returned text -/

namespace InstanceGenerator

theorem gen_instance_some {m n : Nat} {ne : Int} {b bmax dmax : Nat}
    {seed : Option Nat} {g : Rng} {fuel : Nat} {st : GenState}
    (h : core m n ne bmax dmax seed g fuel = some st) :
    gen_instance m n ne b bmax dmax seed g fuel
      = some (String.intercalate "\n" (outLines m n b st), st.console) := by
  simp [gen_instance, h]

/-- With `ne = m` the fill loop exits at once (the coverage set already has
`m` elements), so `core` succeeds for every fuel value, with no console
output and pairs equal to the shuffled coverage set. -/
theorem core_ne_m_eq (m n bmax dmax : Nat) (seed : Option Nat) (g : Rng)
    (fuel : Nat) (hn : 1 ≤ n) :
    core m n (m : Int) bmax dmax seed g fuel = some
      ⟨(randList m 10 bmax (seedOr seed g)).1,
        (randList n 5 dmax (randList m 10 bmax (seedOr seed g)).2).1,
        (shuffle (coverPairs m n (randList n 5 dmax (randList m 10 bmax (seedOr seed g)).2).2).1
          (coverPairs m n (randList n 5 dmax (randList m 10 bmax (seedOr seed g)).2).2).2).1,
        m, []⟩ := by
  have hc : clampNe m n (m : Int) = ([], m) := by
    rw [clampNe_of_valid m n (m : Int) (le_refl _)
      (by exact_mod_cast Nat.le_mul_of_pos_right m hn)]
    simp
  rw [core_some_iff]
  refine ⟨?_, rfl, rfl, ?_, ?_⟩
  · rw [hc]
    exact pairsRun_of_le (Nat.le_refl m)
  · rw [hc]
  · rw [hc]

end InstanceGenerator

namespace Gerador

theorem gen_instance_eq_some {m n : Nat} {ne : Int} {b bmax dmax : Nat}
    {seed : Option Nat} {g : Rng} {st : GenState}
    (h : core m n ne bmax dmax seed g = some st) :
    gen_instance m n ne b bmax dmax seed g
      = some (String.intercalate "\n" (outLines m n ne b st)) := by
  simp [gen_instance, h]

end Gerador

/-! ### Claims -/

/-- Claim C1: for every valid input `(m, n, ne, b)` with `m ≤ ne ≤ m*n` and
any seed, the set of pairs emitted by `gen_instance` has exactly `ne` unique
elements, and every emitted pair `(p, d)` satisfies `0 ≤ p < m` and
`0 ≤ d < n` (in both generator variants; for the clamp variant the statement
is conditional on the fuelled sampling loop terminating). -/
theorem claim1_pair_set_unique_and_bounded
    (m n bmax dmax : Nat) (ne : Int) (seed : Option Nat) (g : Rng) (fuel : Nat)
    (hm : 1 ≤ m) (hn : 1 ≤ n) (h1 : (m : Int) ≤ ne) (h2 : ne ≤ ((m * n : Nat) : Int)) :
    (∀ st : InstanceGenerator.GenState,
        InstanceGenerator.core m n ne bmax dmax seed g fuel = some st →
        st.pairs.length = ne.toNat ∧ st.pairs.Nodup
          ∧ ∀ pd ∈ st.pairs, pd.1 < m ∧ pd.2 < n)
    ∧ (∀ st : Gerador.GenState,
        Gerador.core m n ne bmax dmax seed g = some st →
        st.pairs.length = ne.toNat ∧ st.pairs.Nodup
          ∧ ∀ pd ∈ st.pairs, pd.1 < m ∧ pd.2 < n) := by
  constructor
  · intro st hst
    obtain ⟨hpr, -, -, -, -⟩ := InstanceGenerator.core_some_iff.mp hst
    rw [InstanceGenerator.clampNe_of_valid m n ne h1 h2] at hpr
    exact ⟨InstanceGenerator.pairsRun_length (by omega) hpr,
      InstanceGenerator.pairsRun_nodup hpr,
      InstanceGenerator.pairsRun_bounds hm hn hpr⟩
  · intro st hst
    obtain ⟨-, -, -, hp⟩ := Gerador.core_eq_some_iff.mp hst
    rw [hp, Gerador.pySliceTo_of_nonneg _ _ (by omega)]
    refine ⟨?_, ?_, ?_⟩
    · rw [List.length_take, shuffle_length, Gerador.allPairs_length]
      omega
    · exact (List.take_sublist _ _).nodup
        ((shuffle_perm _ _).symm.nodup (Gerador.allPairs_nodup m n))
    · intro pd hpd
      exact Gerador.mem_allPairs.mp
        ((shuffle_perm _ _).mem_iff.mp (List.mem_of_mem_take hpd))

/-- Witness for C1 at the spec's example `(m, n, ne, b) = (3, 2, 3, 100)`
with seed 7: both cores succeed there and the conclusion holds. -/
theorem claim1_witness :
    (InstanceGenerator.core 3 2 3 600 400 (some 7) (fun _ => 0) 50).isSome = true
    ∧ (Gerador.core 3 2 3 600 400 (some 7) (fun _ => 0)).isSome = true
    ∧ ((1 : Nat) ≤ 3 ∧ (1 : Nat) ≤ 2
        ∧ ((3 : Nat) : Int) ≤ 3 ∧ (3 : Int) ≤ ((3 * 2 : Nat) : Int))
    ∧ ((∀ st : InstanceGenerator.GenState,
          InstanceGenerator.core 3 2 3 600 400 (some 7) (fun _ => 0) 50 = some st →
          st.pairs.length = (3 : Int).toNat ∧ st.pairs.Nodup
            ∧ ∀ pd ∈ st.pairs, pd.1 < 3 ∧ pd.2 < 2)
      ∧ (∀ st : Gerador.GenState,
          Gerador.core 3 2 3 600 400 (some 7) (fun _ => 0) = some st →
          st.pairs.length = (3 : Int).toNat ∧ st.pairs.Nodup
            ∧ ∀ pd ∈ st.pairs, pd.1 < 3 ∧ pd.2 < 2)) :=
  ⟨by decide, by decide, ⟨by decide, by decide, by decide, by decide⟩,
    claim1_pair_set_unique_and_bounded 3 2 600 400 3 (some 7) (fun _ => 0) 50
      (by decide) (by decide) (by decide) (by decide)⟩

/-- Claim C2: with a provided (non-`None`) seed, the output of
`gen_instance` does not depend on the ambient state of the shared random
source, so two runs with identical arguments return identical output
(in both variants). -/
theorem claim2_seed_determinism (m n b bmax dmax : Nat) (ne : Int) (s : Nat)
    (g g' : Rng) (fuel : Nat) :
    InstanceGenerator.gen_instance m n ne b bmax dmax (some s) g fuel
      = InstanceGenerator.gen_instance m n ne b bmax dmax (some s) g' fuel
    ∧ Gerador.gen_instance m n ne b bmax dmax (some s) g
      = Gerador.gen_instance m n ne b bmax dmax (some s) g' :=
  ⟨rfl, rfl⟩

/-- Claim C3: for every valid input with `m ≤ ne ≤ m*n`, in the
coverage-guaranteeing variant (instance_generator.py) every package index
`i < m` appears as the first component of at least one emitted pair. -/
theorem claim3_package_coverage
    (m n bmax dmax : Nat) (ne : Int) (seed : Option Nat) (g : Rng) (fuel : Nat)
    (hm : 1 ≤ m) (hn : 1 ≤ n) (h1 : (m : Int) ≤ ne) (h2 : ne ≤ ((m * n : Nat) : Int)) :
    ∀ st : InstanceGenerator.GenState,
      InstanceGenerator.core m n ne bmax dmax seed g fuel = some st →
      ∀ i < m, ∃ j, (i, j) ∈ st.pairs := by
  intro st hst
  obtain ⟨hpr, -, -, -, -⟩ := InstanceGenerator.core_some_iff.mp hst
  exact InstanceGenerator.pairsRun_coverage hpr

/-- Witness for C3 at `(m, n, ne) = (3, 2, 3)`, seed 7. -/
theorem claim3_witness :
    (InstanceGenerator.core 3 2 3 600 400 (some 7) (fun _ => 0) 50).isSome = true
    ∧ ((1 : Nat) ≤ 3 ∧ (1 : Nat) ≤ 2
        ∧ ((3 : Nat) : Int) ≤ 3 ∧ (3 : Int) ≤ ((3 * 2 : Nat) : Int))
    ∧ (∀ st : InstanceGenerator.GenState,
        InstanceGenerator.core 3 2 3 600 400 (some 7) (fun _ => 0) 50 = some st →
        ∀ i < 3, ∃ j, (i, j) ∈ st.pairs) :=
  ⟨by decide, ⟨by decide, by decide, by decide, by decide⟩,
    claim3_package_coverage 3 2 600 400 3 (some 7) (fun _ => 0) 50
      (by decide) (by decide) (by decide) (by decide)⟩

/-- Claim C4 counterexample: the claim says the raise-policy variant
(gerador_de_instâncias.py) raises whenever `ne < m`, but at
`m = 2, n = 2, ne = 1` it returns an instance instead of raising. -/
theorem claim4_counterexample :
    (Gerador.gen_instance 2 2 1 10 600 400 (some 42) (fun _ => 0)).isSome = true := by
  decide

/-- Claim C4 amended: `gen_instance` of gerador_de_instâncias.py raises
exactly when `ne > m*n`; in particular for `ne < m` it does not raise. -/
theorem claim4_raises_iff_too_large (m n b bmax dmax : Nat) (ne : Int)
    (seed : Option Nat) (g : Rng) :
    Gerador.gen_instance m n ne b bmax dmax seed g = none
      ↔ ((m * n : Nat) : Int) < ne := by
  unfold Gerador.gen_instance
  rw [Option.map_eq_none']
  exact Gerador.core_eq_none_iff

/-- Claim C5: for every valid input, the returned string is the
newline-join of exactly `3 + ne` lines: a header of the four integers
`"m n ne b"`, a line of `m` space-separated benefit values, a line of `n`
space-separated weight values, and `ne` pair lines (in both variants; for
the clamp variant conditional on the fuelled loop terminating). -/
theorem claim5_serialisation_format
    (m n b bmax dmax : Nat) (ne : Int) (seed : Option Nat) (g : Rng) (fuel : Nat)
    (hm : 1 ≤ m) (hn : 1 ≤ n) (h1 : (m : Int) ≤ ne) (h2 : ne ≤ ((m * n : Nat) : Int)) :
    (∀ st : InstanceGenerator.GenState,
        InstanceGenerator.core m n ne bmax dmax seed g fuel = some st →
        InstanceGenerator.gen_instance m n ne b bmax dmax seed g fuel
          = some (String.intercalate "\n" (InstanceGenerator.outLines m n b st), st.console)
        ∧ (InstanceGenerator.outLines m n b st).length = 3 + ne.toNat
        ∧ (InstanceGenerator.outLines m n b st).head? = some
            (toString m ++ " " ++ toString n ++ " " ++ toString ne.toNat ++ " " ++ toString b)
        ∧ (InstanceGenerator.outLines m n b st)[1]?
            = some (String.intercalate " " (st.benefits.map toString))
        ∧ st.benefits.length = m
        ∧ (InstanceGenerator.outLines m n b st)[2]?
            = some (String.intercalate " " (st.weights.map toString))
        ∧ st.weights.length = n
        ∧ (InstanceGenerator.outLines m n b st).drop 3 = st.pairs.map pairLine
        ∧ st.pairs.length = ne.toNat)
    ∧ (∀ st : Gerador.GenState,
        Gerador.core m n ne bmax dmax seed g = some st →
        Gerador.gen_instance m n ne b bmax dmax seed g
          = some (String.intercalate "\n" (Gerador.outLines m n ne b st))
        ∧ (Gerador.outLines m n ne b st).length = 3 + ne.toNat
        ∧ (Gerador.outLines m n ne b st).head? = some
            (toString m ++ " " ++ toString n ++ " " ++ toString ne ++ " " ++ toString b)
        ∧ (Gerador.outLines m n ne b st)[1]?
            = some (String.intercalate " " (st.benefits.map toString))
        ∧ st.benefits.length = m
        ∧ (Gerador.outLines m n ne b st)[2]?
            = some (String.intercalate " " (st.weights.map toString))
        ∧ st.weights.length = n
        ∧ (Gerador.outLines m n ne b st).drop 3 = st.pairs.map pairLine
        ∧ st.pairs.length = ne.toNat) := by
  constructor
  · intro st hst
    obtain ⟨hpr, hb, hw, hne, -⟩ := InstanceGenerator.core_some_iff.mp hst
    rw [InstanceGenerator.clampNe_of_valid m n ne h1 h2] at hpr hne
    have hneVal : st.neVal = ne.toNat := hne
    have hplen : st.pairs.length = ne.toNat :=
      InstanceGenerator.pairsRun_length (by omega) hpr
    refine ⟨InstanceGenerator.gen_instance_some hst, ?_, ?_, ?_, ?_, ?_, ?_, ?_, hplen⟩
    · simp [InstanceGenerator.outLines, hplen]
      omega
    · simp [InstanceGenerator.outLines, hneVal]
    · simp [InstanceGenerator.outLines]
    · rw [hb]
      exact randList_length m 10 bmax _
    · simp [InstanceGenerator.outLines]
    · rw [hw]
      exact randList_length n 5 dmax _
    · simp [InstanceGenerator.outLines]
  · intro st hst
    obtain ⟨-, hb, hw, hp⟩ := Gerador.core_eq_some_iff.mp hst
    have hplen : st.pairs.length = ne.toNat := by
      rw [hp, Gerador.pySliceTo_of_nonneg _ _ (by omega), List.length_take,
        shuffle_length, Gerador.allPairs_length]
      omega
    refine ⟨Gerador.gen_instance_eq_some hst, ?_, ?_, ?_, ?_, ?_, ?_, ?_, hplen⟩
    · simp [Gerador.outLines, hplen]
      omega
    · simp [Gerador.outLines]
    · simp [Gerador.outLines]
    · rw [hb]
      exact randList_length m 10 bmax _
    · simp [Gerador.outLines]
    · rw [hw]
      exact randList_length n 5 dmax _
    · simp [Gerador.outLines]

/-- Witness for C5 at `(m, n, ne, b) = (3, 2, 3, 100)`, seed 7. -/
theorem claim5_witness :
    (InstanceGenerator.core 3 2 3 600 400 (some 7) (fun _ => 0) 50).isSome = true
    ∧ (Gerador.core 3 2 3 600 400 (some 7) (fun _ => 0)).isSome = true
    ∧ ((1 : Nat) ≤ 3 ∧ (1 : Nat) ≤ 2
        ∧ ((3 : Nat) : Int) ≤ 3 ∧ (3 : Int) ≤ ((3 * 2 : Nat) : Int))
    ∧ ((∀ st : InstanceGenerator.GenState,
          InstanceGenerator.core 3 2 3 600 400 (some 7) (fun _ => 0) 50 = some st →
          InstanceGenerator.gen_instance 3 2 3 100 600 400 (some 7) (fun _ => 0) 50
            = some (String.intercalate "\n" (InstanceGenerator.outLines 3 2 100 st), st.console)
          ∧ (InstanceGenerator.outLines 3 2 100 st).length = 3 + (3 : Int).toNat
          ∧ (InstanceGenerator.outLines 3 2 100 st).head? = some
              (toString 3 ++ " " ++ toString 2 ++ " " ++ toString (3 : Int).toNat
                ++ " " ++ toString 100)
          ∧ (InstanceGenerator.outLines 3 2 100 st)[1]?
              = some (String.intercalate " " (st.benefits.map toString))
          ∧ st.benefits.length = 3
          ∧ (InstanceGenerator.outLines 3 2 100 st)[2]?
              = some (String.intercalate " " (st.weights.map toString))
          ∧ st.weights.length = 2
          ∧ (InstanceGenerator.outLines 3 2 100 st).drop 3 = st.pairs.map pairLine
          ∧ st.pairs.length = (3 : Int).toNat)
      ∧ (∀ st : Gerador.GenState,
          Gerador.core 3 2 3 600 400 (some 7) (fun _ => 0) = some st →
          Gerador.gen_instance 3 2 3 100 600 400 (some 7) (fun _ => 0)
            = some (String.intercalate "\n" (Gerador.outLines 3 2 3 100 st))
          ∧ (Gerador.outLines 3 2 3 100 st).length = 3 + (3 : Int).toNat
          ∧ (Gerador.outLines 3 2 3 100 st).head? = some
              (toString 3 ++ " " ++ toString 2 ++ " " ++ toString (3 : Int)
                ++ " " ++ toString 100)
          ∧ (Gerador.outLines 3 2 3 100 st)[1]?
              = some (String.intercalate " " (st.benefits.map toString))
          ∧ st.benefits.length = 3
          ∧ (Gerador.outLines 3 2 3 100 st)[2]?
              = some (String.intercalate " " (st.weights.map toString))
          ∧ st.weights.length = 2
          ∧ (Gerador.outLines 3 2 3 100 st).drop 3 = st.pairs.map pairLine
          ∧ st.pairs.length = (3 : Int).toNat)) :=
  ⟨by decide, by decide, ⟨by decide, by decide, by decide, by decide⟩,
    claim5_serialisation_format 3 2 100 600 400 3 (some 7) (fun _ => 0) 50
      (by decide) (by decide) (by decide) (by decide)⟩

/-- Claim C6 counterexample: the claim says any non-positive `m, n, ne, b`
makes `gen_instance` fail with an invalid-parameter error in both variants,
but with `b = 0` (non-positive) both variants return an instance. -/
theorem claim6_counterexample :
    (Gerador.gen_instance 2 2 2 0 600 400 (some 5) (fun _ => 0)).isSome = true
    ∧ (InstanceGenerator.gen_instance 2 2 2 0 600 400 (some 5) (fun _ => 0) 0).isSome = true :=
  ⟨by decide, by decide⟩

/-- Claim C6 amended: neither variant validates positivity of its
parameters; in particular a call with `b = 0` (and otherwise valid
`m, n, ne`) returns an instance in both variants instead of raising. -/
theorem claim6_no_positivity_validation (m n bmax dmax : Nat)
    (seed : Option Nat) (g : Rng) (fuel : Nat) (hm : 1 ≤ m) (hn : 1 ≤ n) :
    (Gerador.gen_instance m n (m : Int) 0 bmax dmax seed g).isSome = true
    ∧ (InstanceGenerator.gen_instance m n (m : Int) 0 bmax dmax seed g fuel).isSome = true := by
  constructor
  · have hnone : Gerador.core m n (m : Int) bmax dmax seed g ≠ none := by
      intro h
      have hlt := Gerador.core_eq_none_iff.mp h
      have hmn : m ≤ m * n := Nat.le_mul_of_pos_right m hn
      omega
    cases hcore : Gerador.core m n (m : Int) bmax dmax seed g with
    | none => exact absurd hcore hnone
    | some st => simp [Gerador.gen_instance, hcore]
  · have h := InstanceGenerator.core_ne_m_eq m n bmax dmax seed g fuel hn
    simp [InstanceGenerator.gen_instance, h]

/-- Witness for C6 (amended) at `m = n = 2`, seed 5. -/
theorem claim6_witness :
    ((1 : Nat) ≤ 2 ∧ (1 : Nat) ≤ 2)
    ∧ ((Gerador.gen_instance 2 2 ((2 : Nat) : Int) 0 600 400 (some 5) (fun _ => 0)).isSome = true
      ∧ (InstanceGenerator.gen_instance 2 2 ((2 : Nat) : Int) 0 600 400 (some 5)
          (fun _ => 0) 3).isSome = true) :=
  ⟨⟨by decide, by decide⟩,
    claim6_no_positivity_validation 2 2 600 400 (some 5) (fun _ => 0) 3
      (by decide) (by decide)⟩

/-- Claim C7: for every valid input, `gen_instance` samples exactly `m`
benefit values, each in `[10, benefit_max]`, and exactly `n` weight values,
each in `[5, dep_max]` (in both variants). -/
theorem claim7_value_ranges
    (m n bmax dmax : Nat) (ne : Int) (seed : Option Nat) (g : Rng) (fuel : Nat)
    (hbm : 10 ≤ bmax) (hdm : 5 ≤ dmax) :
    (∀ st : InstanceGenerator.GenState,
        InstanceGenerator.core m n ne bmax dmax seed g fuel = some st →
        st.benefits.length = m ∧ (∀ v ∈ st.benefits, 10 ≤ v ∧ v ≤ bmax)
          ∧ st.weights.length = n ∧ ∀ v ∈ st.weights, 5 ≤ v ∧ v ≤ dmax)
    ∧ (∀ st : Gerador.GenState,
        Gerador.core m n ne bmax dmax seed g = some st →
        st.benefits.length = m ∧ (∀ v ∈ st.benefits, 10 ≤ v ∧ v ≤ bmax)
          ∧ st.weights.length = n ∧ ∀ v ∈ st.weights, 5 ≤ v ∧ v ≤ dmax) := by
  constructor
  · intro st hst
    obtain ⟨-, hb, hw, -, -⟩ := InstanceGenerator.core_some_iff.mp hst
    rw [hb, hw]
    exact ⟨randList_length m 10 bmax _, randList_mem m 10 bmax _ hbm,
      randList_length n 5 dmax _, randList_mem n 5 dmax _ hdm⟩
  · intro st hst
    obtain ⟨-, hb, hw, -⟩ := Gerador.core_eq_some_iff.mp hst
    rw [hb, hw]
    exact ⟨randList_length m 10 bmax _, randList_mem m 10 bmax _ hbm,
      randList_length n 5 dmax _, randList_mem n 5 dmax _ hdm⟩

/-- Witness for C7 at `(m, n, ne) = (3, 2, 3)` with the default maxima. -/
theorem claim7_witness :
    (InstanceGenerator.core 3 2 3 600 400 (some 7) (fun _ => 0) 50).isSome = true
    ∧ ((10 : Nat) ≤ 600 ∧ (5 : Nat) ≤ 400)
    ∧ ((∀ st : InstanceGenerator.GenState,
          InstanceGenerator.core 3 2 3 600 400 (some 7) (fun _ => 0) 50 = some st →
          st.benefits.length = 3 ∧ (∀ v ∈ st.benefits, 10 ≤ v ∧ v ≤ 600)
            ∧ st.weights.length = 2 ∧ ∀ v ∈ st.weights, 5 ≤ v ∧ v ≤ 400)
      ∧ (∀ st : Gerador.GenState,
          Gerador.core 3 2 3 600 400 (some 7) (fun _ => 0) = some st →
          st.benefits.length = 3 ∧ (∀ v ∈ st.benefits, 10 ≤ v ∧ v ≤ 600)
            ∧ st.weights.length = 2 ∧ ∀ v ∈ st.weights, 5 ≤ v ∧ v ≤ 400)) :=
  ⟨by decide, ⟨by decide, by decide⟩,
    claim7_value_ranges 3 2 600 400 3 (some 7) (fun _ => 0) 50 (by decide) (by decide)⟩

/-- Claim C8: in the coverage-guaranteeing variant, a call with `ne = m`
emits the minimal coverage-only edge set: for every fuel value the call
succeeds, with exactly `m` pairs whose package components are a permutation
of `0, …, m-1` (so one pair per package and nothing beyond the coverage
step), all distinct and with dependency components below `n`. -/
theorem claim8_minimal_coverage_set (m n bmax dmax : Nat) (seed : Option Nat)
    (g : Rng) (fuel : Nat) (hm : 1 ≤ m) (hn : 1 ≤ n) :
    ∃ st : InstanceGenerator.GenState,
      InstanceGenerator.core m n (m : Int) bmax dmax seed g fuel = some st
      ∧ st.pairs.length = m
      ∧ (st.pairs.map Prod.fst).Perm (List.range m)
      ∧ st.pairs.Nodup
      ∧ ∀ pd ∈ st.pairs, pd.2 < n := by
  refine ⟨_, InstanceGenerator.core_ne_m_eq m n bmax dmax seed g fuel hn, ?_, ?_, ?_, ?_⟩
  · rw [shuffle_length, InstanceGenerator.coverPairs_length]
  · have h := (shuffle_perm
      (InstanceGenerator.coverPairs m n
        (randList n 5 dmax (randList m 10 bmax (seedOr seed g)).2).2).1
      (InstanceGenerator.coverPairs m n
        (randList n 5 dmax (randList m 10 bmax (seedOr seed g)).2).2).2).map Prod.fst
    rwa [InstanceGenerator.coverPairs_map_fst] at h
  · exact (shuffle_perm _ _).symm.nodup (InstanceGenerator.coverPairs_nodup m n _)
  · intro pd hpd
    exact InstanceGenerator.coverPairs_snd_lt m n _ hn pd
      ((shuffle_perm _ _).mem_iff.mp hpd)

/-- Witness for C8 at `m = 3, n = 2`, seed 7, fuel 0 (the loop body never
has to run). -/
theorem claim8_witness :
    ((1 : Nat) ≤ 3 ∧ (1 : Nat) ≤ 2)
    ∧ ∃ st : InstanceGenerator.GenState,
        InstanceGenerator.core 3 2 ((3 : Nat) : Int) 600 400 (some 7) (fun _ => 0) 0 = some st
        ∧ st.pairs.length = 3
        ∧ (st.pairs.map Prod.fst).Perm (List.range 3)
        ∧ st.pairs.Nodup
        ∧ ∀ pd ∈ st.pairs, pd.2 < 2 :=
  ⟨⟨by decide, by decide⟩,
    claim8_minimal_coverage_set 3 2 600 400 (some 7) (fun _ => 0) 0
      (by decide) (by decide)⟩

/-- Claim C9 counterexample: the claim says calling `gen_instance` prints
nothing to the console for every input, but the clamp variant at
`m = 2, n = 2, ne = 1` prints an adjustment warning. -/
theorem claim9_counterexample :
    ((InstanceGenerator.core 2 2 1 600 400 (some 3) (fun _ => 0) 0).map fun st => st.console)
      = some ["[!] ne=1 is too small. Adjusted to 2 to ensure each package has a dependency."] := by
  decide

/-- Claim C9 amended: `gen_instance` has no observable effect beyond its
return value and the shared random source — the embedding returns only the
text and the printed lines, and nothing is printed when `ne` is within
`[m, m*n]`; only the clamp variant's out-of-range warning is printed
otherwise (the raise variant's model has no console output at all). -/
theorem claim9_silent_on_valid_input
    (m n bmax dmax : Nat) (ne : Int) (seed : Option Nat) (g : Rng) (fuel : Nat)
    (h1 : (m : Int) ≤ ne) (h2 : ne ≤ ((m * n : Nat) : Int)) :
    ∀ st : InstanceGenerator.GenState,
      InstanceGenerator.core m n ne bmax dmax seed g fuel = some st →
      st.console = [] := by
  intro st hst
  obtain ⟨-, -, -, -, hcon⟩ := InstanceGenerator.core_some_iff.mp hst
  rw [InstanceGenerator.clampNe_of_valid m n ne h1 h2] at hcon
  exact hcon

/-- Witness for C9 (amended) at `(m, n, ne) = (3, 2, 3)`, seed 7. -/
theorem claim9_witness :
    (InstanceGenerator.core 3 2 3 600 400 (some 7) (fun _ => 0) 50).isSome = true
    ∧ (((3 : Nat) : Int) ≤ 3 ∧ (3 : Int) ≤ ((3 * 2 : Nat) : Int))
    ∧ (∀ st : InstanceGenerator.GenState,
        InstanceGenerator.core 3 2 3 600 400 (some 7) (fun _ => 0) 50 = some st →
        st.console = []) :=
  ⟨by decide, ⟨by decide, by decide⟩,
    claim9_silent_on_valid_input 3 2 600 400 3 (some 7) (fun _ => 0) 50
      (by decide) (by decide)⟩

/-- Claim C10: the `ne` value written in the header always equals the number
of pair lines that follow: in the clamp variant for every integer `ne` the
header records the clamped value (which lies in `[m, m*n]`) and the pair
list has exactly that length; in the raise variant for every
`0 ≤ ne ≤ m*n` the pair list has exactly `ne` elements. -/
theorem claim10_header_count_matches_pairs (m n bmax dmax : Nat)
    (seed : Option Nat) (g : Rng) (hm : 1 ≤ m) (hn : 1 ≤ n) :
    (∀ (ne : Int) (fuel : Nat) (st : InstanceGenerator.GenState),
        InstanceGenerator.core m n ne bmax dmax seed g fuel = some st →
        st.pairs.length = st.neVal ∧ m ≤ st.neVal ∧ st.neVal ≤ m * n)
    ∧ (∀ (ne : Int) (st : Gerador.GenState), 0 ≤ ne → ne ≤ ((m * n : Nat) : Int) →
        Gerador.core m n ne bmax dmax seed g = some st →
        st.pairs.length = ne.toNat) := by
  constructor
  · intro ne fuel st hst
    obtain ⟨hpr, -, -, hne, -⟩ := InstanceGenerator.core_some_iff.mp hst
    obtain ⟨hcb1, hcb2⟩ := InstanceGenerator.clampNe_bounds m n ne hn
    rw [hne]
    exact ⟨InstanceGenerator.pairsRun_length hcb1 hpr, hcb1, hcb2⟩
  · intro ne st h0 hle hst
    obtain ⟨-, -, -, hp⟩ := Gerador.core_eq_some_iff.mp hst
    rw [hp, Gerador.pySliceTo_of_nonneg _ _ h0, List.length_take,
      shuffle_length, Gerador.allPairs_length]
    omega

/-- Witness for C10 at `m = 3, n = 2`, seed 7. -/
theorem claim10_witness :
    (InstanceGenerator.core 3 2 9 600 400 (some 7) (fun _ => 0) 50).isSome = true
    ∧ (Gerador.core 3 2 4 600 400 (some 7) (fun _ => 0)).isSome = true
    ∧ ((1 : Nat) ≤ 3 ∧ (1 : Nat) ≤ 2)
    ∧ ((∀ (ne : Int) (fuel : Nat) (st : InstanceGenerator.GenState),
          InstanceGenerator.core 3 2 ne 600 400 (some 7) (fun _ => 0) fuel = some st →
          st.pairs.length = st.neVal ∧ 3 ≤ st.neVal ∧ st.neVal ≤ 3 * 2)
      ∧ (∀ (ne : Int) (st : Gerador.GenState), 0 ≤ ne → ne ≤ ((3 * 2 : Nat) : Int) →
          Gerador.core 3 2 ne 600 400 (some 7) (fun _ => 0) = some st →
          st.pairs.length = ne.toNat)) :=
  ⟨by decide, by decide, ⟨by decide, by decide⟩,
    claim10_header_count_matches_pairs 3 2 600 400 (some 7) (fun _ => 0)
      (by decide) (by decide)⟩
